import Mathlib

/-!
Verification of the retrieval core of the R&D map semantic-search service:
the offline index builder (`scripts/prepare_data.py`, `scripts/build_index.py`)
and the online search pipeline (`fastapi_server/main.py`), embedded shallowly.

Modelling conventions:
* Python floats are modelled as rationals (`ℚ`); the claims under study concern
  ordering, counting and control flow, none of which depend on rounding.
* A Python call that may raise is modelled as an `Option`/`Except` value;
  `none`/`.error` is the exception propagating.
* External network capabilities (the OpenRouter embedding endpoint and the chat
  model used by `rewrite_query`) are oracles passed in as functions: the code
  under verification is exactly the Python around the call sites.
-/

namespace RndMap

/-! ## Data model (`scripts/prepare_data.py`) -/

/-- One project object inside a center JSON file, with the fields
`prepare_data.py` reads (`proj.get(...)`); a missing field is the `.get`
default, so every field is total here. -/
structure RawProject where
  registration_number : String
  name : String
  abstract : String
  keywords : List String
  stage_end_date : String
deriving Repr, DecidableEq

/-- One center JSON file as `prepare_data.py` consumes it. -/
structure Center where
  ogrn : String
  name : String
  projects : List RawProject
deriving Repr, DecidableEq

/-- A line of `projects_metadata.jsonl`. -/
structure MetaRecord where
  project_id : String
  center_id : String
  center_name : String
  title : String
  year : String
deriving Repr, DecidableEq

/-- A line of `projects_search_text.jsonl`. -/
structure SearchRecord where
  project_id : String
  search_text : String
deriving Repr, DecidableEq

/-- `normalize_text`: `re.sub(r'\s+', ' ', text).strip()`, and `""` for falsy
input — collapse whitespace runs to a single space and trim. -/
def normalize_text (t : String) : String :=
  " ".intercalate ((t.split Char.isWhitespace).filter (· ≠ ""))

/-- The `year` field: `proj.get("stage_end_date", "")[:4] if proj.get("stage_end_date") else ""`. -/
def yearOf (p : RawProject) : String :=
  if p.stage_end_date = "" then "" else p.stage_end_date.take 4

/-- The `search_text` field: `f"{title}. {keywords_str}. {abstract}"` with
`keywords_str = ", ".join(keywords) if keywords else ""`. -/
def searchTextOf (p : RawProject) : String :=
  normalize_text p.name ++ ". " ++
    (if p.keywords = [] then "" else ", ".intercalate p.keywords) ++ ". " ++
    normalize_text p.abstract

/-- The body of the per-project loop in `prepare_data.main`: skip a project with
an empty `registration_number`, otherwise emit one metadata line and one
search-text line, in the same iteration. -/
def emitProject (c : Center) (p : RawProject) : Option (MetaRecord × SearchRecord) :=
  if p.registration_number = "" then none
  else some
    ({ project_id := p.registration_number
       center_id := c.ogrn
       center_name := normalize_text c.name
       title := normalize_text p.name
       year := yearOf p },
     { project_id := p.registration_number
       search_text := searchTextOf p })

/-- `prepare_data.main`: iterate center files in order, projects in order,
writing the two artifact files line by line.  Center files whose JSON fails to
load are skipped whole by the `try/except` around the file body, so the input
here is the list of successfully parsed centers. -/
def prepareRecords (centers : List Center) : List (MetaRecord × SearchRecord) :=
  centers.flatMap fun c => c.projects.filterMap (emitProject c)

/-- The `projects_metadata.jsonl` contents, in line order. -/
def prepareMetadata (centers : List Center) : List MetaRecord :=
  (prepareRecords centers).map Prod.fst

/-- The `projects_search_text.jsonl` contents, in line order. -/
def prepareSearchText (centers : List Center) : List SearchRecord :=
  (prepareRecords centers).map Prod.snd

/-! ## Index builder (`scripts/build_index.py`) -/

/-- A dense vector (Python list of floats, modelled over `ℚ`). -/
abbrev Vec := List ℚ

/-- `BATCH_SIZE = 100`. -/
def BATCH_SIZE : Nat := 100

/-- `range(0, len(texts), BATCH_SIZE)` slicing: partition a list into
consecutive chunks of at most `b` elements (for `b ≥ 1`). -/
def chunks (b : Nat) : List α → List (List α)
  | [] => []
  | x :: xs => (x :: xs.take (b - 1)) :: chunks b (xs.drop (b - 1))
termination_by l => l.length
decreasing_by
  simp only [List.length_drop, List.length_cons]
  omega

/-- The zero-vector placeholder `[0.0] * 1536` stored for an item whose
embedding fails even after the per-item fallback. -/
def zeroVec : Vec := List.replicate 1536 0

/-- The body of the per-batch loop in `build_index.main`: try the batch call;
on failure fall back to per-item calls, substituting `zeroVec` for an item that
still fails.  `batchO`/`itemO` are the embedding API call outcomes (`none` =
the call raised). -/
def processBatch (batchO : List String → Option (List Vec))
    (itemO : String → Option Vec) (batch : List String) : List Vec :=
  match batchO batch with
  | some es => es
  | none => batch.map fun t => (itemO t).getD zeroVec

/-- `build_index.main`, encoding phase: `all_embeddings` after the batch loop,
one batch at a time in input order. -/
def buildEmbeddings (batchO : List String → Option (List Vec))
    (itemO : String → Option Vec) (texts : List String) : List Vec :=
  (chunks BATCH_SIZE texts).flatMap (processBatch batchO itemO)


/-! ## Serving side (`fastapi_server/main.py`) -/

/-- `startup_event` metadata loading: `metadata = [json.loads(line) for line in f]`.
`parse` is `json.loads`-as-a-record for one line (`none` = the line cannot be
parsed as a record); the comprehension raises at the first failing line, so the
whole load yields `none` as soon as any line is unparsable. -/
def loadMetadata (parse : String → Option MetaRecord) :
    List String → Option (List MetaRecord)
  | [] => some []
  | l :: ls =>
    match parse l with
    | none => none
    | some r => (loadMetadata parse ls).map (r :: ·)

/-- Request body of `POST /ai-search` (`SearchRequest`); pydantic attaches no
bounds to any field. -/
structure SearchRequest where
  query : String
  top_k_candidates : Int := 50
  top_k_results : Int := 10
  use_rerank : Bool := true
  use_rewrite : Bool := true
deriving Repr, DecidableEq

/-- One element of a `SearchResponse.results` list (`SearchResult`). -/
structure SearchResult where
  project_id : String
  center_id : String
  center_name : String
  title : String
  year : String
  score : ℚ
  why_matched : Option String := none
  evidence_snippets : List String := []
deriving Repr, DecidableEq

/-- `SearchResponse`, without `timings_ms`: the timing entries are wall-clock
measurements with no functional content, outside this embedding. -/
structure SearchResponse where
  query_original : String
  rewritten_query : Option String
  results : List SearchResult
deriving Repr, DecidableEq

/-- A `fastapi.HTTPException` as raised by the handler. -/
structure HTTPError where
  status : Nat
  detail : String
deriving Repr, DecidableEq

/-- The process-wide state `startup_event` leaves behind: the loaded embedding
model (as the total local function query ↦ normalized query vector, covering
`embed_model.encode` + `faiss.normalize_L2`), the optional FAISS index (its
row-ordered database vectors), the metadata list, whether `openai_client` was
initialised, and the outcome of the rewrite chat call (`none` = the call
raised). -/
structure ServiceState where
  embedO : String → Vec
  faiss_index : Option (List Vec)
  metadata : List MetaRecord
  client : Bool
  rewriteO : String → Option String

/-- `rewrite_query`: identity when `openai_client` is absent; otherwise the
chat-completion result, falling back to the original query when the call
raises. -/
def rewrite_query (st : ServiceState) (query : String) : String :=
  if st.client then
    match st.rewriteO query with
    | some rewritten => rewritten
    | none => query
  else query

/-- Python list slicing `l[:k]` for an `int` `k`: the first `k` elements when
`k ≥ 0`, and all but the last `|k|` elements when `k < 0`. -/
def pySlice (k : Int) (l : List α) : List α :=
  if 0 ≤ k then l.take k.toNat else l.take (l.length - (-k).toNat)

/-- `rerank_results`: both branches return `candidates[:top_k]` — the LLM
rerank is left unimplemented in MVP v0.1. -/
def rerank_results (client : Bool) (candidates : List SearchResult) (top_k : Int) :
    List SearchResult :=
  if client then pySlice top_k candidates else pySlice top_k candidates

/-- Modelled from the spec: FAISS `IndexFlatIP` is an external library whose
code is not in this repository; per §4.1 its `search` is exact inner-product
search returning up to `k` rows by descending score, ties broken by original
row order.  Inner product of two vectors. -/
def dot (v w : Vec) : ℚ :=
  ((v.zip w).map fun p => p.1 * p.2).sum

/-- Every database row paired with its inner-product score against the query. -/
def scoredRows (db : List Vec) (v : Vec) : List (Nat × ℚ) :=
  (db.map (dot v)).enum

/-- The retrieval ordering: higher score first, equal scores by ascending
original row index (the stable tie-break of §4.1). -/
def rankR (a b : Nat × ℚ) : Prop :=
  b.2 < a.2 ∨ (a.2 = b.2 ∧ a.1 ≤ b.1)

instance : DecidableRel rankR := fun a b => by
  unfold rankR
  exact inferInstance

instance : IsTotal (Nat × ℚ) rankR :=
  ⟨fun a b => by
    unfold rankR
    rcases lt_trichotomy a.2 b.2 with h | h | h
    · exact Or.inr (Or.inl h)
    · rcases Nat.le_total a.1 b.1 with hn | hn
      · exact Or.inl (Or.inr ⟨h, hn⟩)
      · exact Or.inr (Or.inr ⟨h.symm, hn⟩)
    · exact Or.inl (Or.inl h)⟩

instance : IsTrans (Nat × ℚ) rankR :=
  ⟨fun a b c hab hbc => by
    unfold rankR at *
    rcases hab with h1 | ⟨he1, hn1⟩ <;> rcases hbc with h2 | ⟨he2, hn2⟩
    · exact Or.inl (h2.trans h1)
    · exact Or.inl (he2 ▸ h1)
    · exact Or.inl (he1 ▸ h2)
    · exact Or.inr ⟨he1.trans he2, hn1.trans hn2⟩⟩

/-- Modelled from the spec: `faiss_index.search(vec, k)` over an `IndexFlatIP`
database — FAISS is an external library whose code is not in this repository,
so per §4.1 its search is exact inner-product search: all rows sorted by
descending score with ties broken by original row order, truncated to `k`.
Result entries are `(row_index, score)`.  FAISS additionally pads the output
to length `k` with sentinel entries carrying row index `-1` when the database
is smaller than `k`; the handler drops negative indices, so padding is kept
out of this definition and negative indices are treated at the join
(`joinCandidates`). -/
def faissTopk (db : List Vec) (v : Vec) (k : Nat) : List (Nat × ℚ) :=
  ((scoredRows db v).insertionSort rankR).take k

/-- The retrieved candidate pairs as the handler consumes them:
`zip(scores[0], indices[0])`, indices as machine ints. -/
def retrieve (db : List Vec) (v : Vec) (k : Int) : List (ℚ × Int) :=
  (faissTopk db v k.toNat).map fun p => (p.2, (p.1 : Int))

/-- The similarity evidence string
`f"Семантическое сходство: {score:.4f}"`: the score rendered with four
fractional digits.  Python `%.4f` rounds half-to-even; `Rat.round` rounds
half-away-from-zero — the two differ only on exact five-at-the-fifth-digit
ties, which no claim depends on. -/
def evidenceString (score : ℚ) : String :=
  let s : ℚ := score * 10000 + 1 / 2
  let n : Int := s.num.fdiv (s.den : Int)
  let frac : String := toString (n.natAbs % 10000)
  (if n < 0 then "-" else "") ++ toString (n.natAbs / 10000) ++ "." ++
    ("".pushn '0' (4 - frac.length) ++ frac)

/-- The candidate dict appended for an in-range row. -/
def mkCandidate (m : MetaRecord) (score : ℚ) : SearchResult :=
  { project_id := m.project_id
    center_id := m.center_id
    center_name := m.center_name
    title := m.title
    year := m.year
    score := score
    why_matched := none
    evidence_snippets := ["Семантическое сходство: " ++ evidenceString score] }

/-- The join loop of the handler: for each `(score, idx)` pair, `continue` when
`idx < 0 or idx >= len(metadata)`, else append the candidate dict built from
`metadata[idx]`. -/
def joinCandidates (metadata : List MetaRecord) : List (ℚ × Int) → List SearchResult
  | [] => []
  | (score, idx) :: rest =>
    if h : idx < 0 ∨ (metadata.length : Int) ≤ idx then
      joinCandidates metadata rest
    else
      mkCandidate (metadata.get ⟨idx.toNat, by omega⟩) score :: joinCandidates metadata rest

/-- The served query and the `rewritten` variable after step 1 of the handler:
inside `if req.use_rewrite and openai_client:` both are set to
`rewrite_query(req.query)`. -/
def rewriteStep (st : ServiceState) (req : SearchRequest) : String × Option String :=
  if req.use_rewrite && st.client then
    (rewrite_query st req.query, some (rewrite_query st req.query))
  else (req.query, none)

/-- Steps 3–5 of the handler once the index is known to be loaded: retrieve
`top_k_candidates`, join with metadata, truncate to `results = candidates[:req.top_k_results]`. -/
def resultsFor (st : ServiceState) (db : List Vec) (q : String) (tkc tkr : Int) :
    List SearchResult :=
  pySlice tkr (joinCandidates st.metadata (retrieve db (st.embedO q) tkc))

/-- The `POST /ai-search` handler `search`: rewrite step, embed, index check
(`raise HTTPException(500, "Index not loaded")` when `faiss_index` is unset),
retrieve, join, truncate, assemble response.  `use_rerank` is read nowhere and
`rerank_results` is never called. -/
def search (st : ServiceState) (req : SearchRequest) :
    Except HTTPError SearchResponse :=
  let qr := rewriteStep st req
  match st.faiss_index with
  | none => .error ⟨500, "Index not loaded"⟩
  | some db =>
    .ok { query_original := req.query
          rewritten_query := qr.2
          results := resultsFor st db qr.1 req.top_k_candidates req.top_k_results }

instance : Inhabited MetaRecord :=
  ⟨{ project_id := "", center_id := "", center_name := "", title := "", year := "" }⟩

/-- The joined candidate list of a request, before truncation: what the
handler accumulates in `candidates` when the index holds `db`. -/
def joined (st : ServiceState) (db : List Vec) (req : SearchRequest) :
    List SearchResult :=
  joinCandidates st.metadata (retrieve db (st.embedO (rewriteStep st req).1) req.top_k_candidates)

/-! ## Concrete fixtures for witnesses and counterexamples -/

/-- A two-record metadata store. -/
def meta0 : MetaRecord :=
  { project_id := "P1", center_id := "C1", center_name := "CenterA"
    title := "TitleA", year := "2024" }

def meta1 : MetaRecord :=
  { project_id := "P2", center_id := "C1", center_name := "CenterA"
    title := "TitleB", year := "2023" }

/-- A two-row index database of dimension-zero vectors: every inner product is
the empty sum `0`, so retrieval order is decided by the row-order tie-break. -/
def db0 : List Vec := [[], []]

/-- An embedding model that maps every query to the dimension-zero vector. -/
def embed0 : String → Vec := fun _ => []

/-- A fully loaded service with no OpenRouter client configured. -/
def stPlain : ServiceState :=
  { embedO := embed0, faiss_index := some db0, metadata := [meta0, meta1]
    client := false, rewriteO := fun _ => none }

/-- A service whose FAISS index was never loaded. -/
def stNoIndex : ServiceState :=
  { embedO := embed0, faiss_index := none, metadata := [meta0, meta1]
    client := false, rewriteO := fun _ => none }

/-- A fully loaded service whose rewrite call always raises. -/
def stFailingRewriter : ServiceState :=
  { embedO := embed0, faiss_index := some db0, metadata := [meta0, meta1]
    client := true, rewriteO := fun _ => none }

/-- A one-center, one-project corpus for the offline builder. -/
def centers0 : List Center :=
  [{ ogrn := "C1", name := "CenterA"
     projects := [{ registration_number := "P1", name := "TitleA"
                    abstract := "AbstractA", keywords := [], stage_end_date := "2024-05-01" }] }]

/-- A line parser that accepts exactly the line `good`. -/
def parse0 : String → Option MetaRecord :=
  fun s => if s = "good" then some meta0 else none

/-! ## Theorems -/

theorem chunks_flatten (b : Nat) (l : List α) : (chunks b l).flatten = l := by
  induction l using chunks.induct b with
  | case1 => simp [chunks]
  | case2 x xs ih => simp [chunks, ih]

theorem buildEmbeddings_length (batchO : List String → Option (List Vec))
    (itemO : String → Option Vec) (texts : List String)
    (hlen : ∀ b es, batchO b = some es → es.length = b.length) :
    (buildEmbeddings batchO itemO texts).length = texts.length := by
  have hbatch : ∀ batch, (processBatch batchO itemO batch).length = batch.length := by
    intro batch
    unfold processBatch
    cases hb : batchO batch with
    | some es => simpa using hlen batch es hb
    | none => simp
  unfold buildEmbeddings
  rw [List.flatMap_def, List.length_flatten, List.map_map]
  calc (List.map (List.length ∘ processBatch batchO itemO) (chunks BATCH_SIZE texts)).sum
      = (List.map List.length (chunks BATCH_SIZE texts)).sum := by
        congr 1
        exact List.map_congr_left fun batch _ => hbatch batch
    _ = texts.length := by
        rw [← List.length_flatten, chunks_flatten]

theorem buildEmbeddings_allFail (batchO : List String → Option (List Vec))
    (itemO : String → Option Vec) (texts : List String)
    (hfail : ∀ b, batchO b = none) :
    buildEmbeddings batchO itemO texts = texts.map fun t => (itemO t).getD zeroVec := by
  unfold buildEmbeddings
  have hbatch : ∀ batch, processBatch batchO itemO batch
      = batch.map fun t => (itemO t).getD zeroVec := by
    intro batch
    unfold processBatch
    rw [hfail batch]
  rw [List.flatMap_def, List.map_congr_left fun batch _ => hbatch batch]
  rw [← List.map_flatten, chunks_flatten]
theorem prepareRecords_id_eq (centers : List Center) :
    ∀ pr ∈ prepareRecords centers, pr.1.project_id = pr.2.project_id := by
  intro pr hpr
  simp only [prepareRecords, List.mem_flatMap] at hpr
  obtain ⟨c, _, hmem⟩ := hpr
  obtain ⟨p, _, hemit⟩ := List.mem_filterMap.mp hmem
  unfold emitProject at hemit
  split at hemit
  · exact absurd hemit (by simp)
  · cases hemit
    rfl

theorem joinCandidates_length_le (metadata : List MetaRecord)
    (pairs : List (ℚ × Int)) :
    (joinCandidates metadata pairs).length ≤ pairs.length := by
  induction pairs with
  | nil => simp [joinCandidates]
  | cons p rest ih =>
    obtain ⟨s, idx⟩ := p
    by_cases h : idx < 0 ∨ (metadata.length : Int) ≤ idx
    · simp only [joinCandidates, dif_pos h, List.length_cons]
      omega
    · simp only [joinCandidates, dif_neg h, List.length_cons]
      omega

/-- C1 (row alignment of the freshly built artifact pair): the builder emits
exactly one vector per search-text record; the metadata record at row `i`
carries the same `project_id` the builder reads for vector row `i` (both files
are written pairwise by `prepare_data.py` in one loop); and when every batch
call fails and the per-item fallback also fails, the zero-vector placeholder is
stored at that row instead of the row being dropped, so count and order are
preserved under any pattern of embedding failures.  `hlen` is the embedding
API contract that a successful batch call returns one embedding per input. -/
theorem c1_row_alignment
    (centers : List Center) (batchO : List String → Option (List Vec))
    (itemO : String → Option Vec)
    (hlen : ∀ b es, batchO b = some es → es.length = b.length) :
    (buildEmbeddings batchO itemO
        ((prepareSearchText centers).map SearchRecord.search_text)).length
      = (prepareMetadata centers).length
    ∧ (∀ (i : Nat) (h1 : i < (prepareMetadata centers).length)
          (h2 : i < (prepareSearchText centers).length),
        ((prepareMetadata centers)[i]).project_id
          = ((prepareSearchText centers)[i]).project_id)
    ∧ ((∀ b, batchO b = none) →
        buildEmbeddings batchO itemO
            ((prepareSearchText centers).map SearchRecord.search_text)
          = ((prepareSearchText centers).map SearchRecord.search_text).map
              fun t => (itemO t).getD zeroVec) := by
  refine ⟨?_, ?_, fun hb => buildEmbeddings_allFail _ _ _ hb⟩
  · rw [buildEmbeddings_length _ _ _ hlen]
    simp [prepareMetadata, prepareSearchText]
  · intro i h1 h2
    simp only [prepareMetadata, prepareSearchText, List.getElem_map]
    exact prepareRecords_id_eq centers _ (List.getElem_mem _)

/-- Witness for C1: the one-project corpus `centers0` under an embedding API
that always fails still yields one vector row for its one metadata row. -/
theorem c1_row_alignment_witness :
    (buildEmbeddings (fun _ => none) (fun _ => none)
        ((prepareSearchText centers0).map SearchRecord.search_text)).length
      = (prepareMetadata centers0).length :=
  (c1_row_alignment centers0 (fun _ => none) (fun _ => none)
    (fun _ _ h => Option.noConfusion h)).1

/-- C2 counterexample: a metadata source whose second line is unparsable does
not load — the list comprehension in `startup_event` propagates the parse
error, so the whole load fails (`none`), even though the same source without
the bad line loads fine.  This refutes the claim that loading always succeeds
in the presence of an unparsable line. -/
theorem c2_counterexample :
    parse0 "bad" = none
    ∧ loadMetadata parse0 ["good", "bad"] = none
    ∧ loadMetadata parse0 ["good"] = some [meta0] :=
  ⟨rfl, by decide, by decide⟩

/-- C2 amended: metadata loading aborts on the first unparsable line — a
source containing any unparsable line yields no store at all (the exception
propagates out of `startup_event`), and loading succeeds exactly when every
line parses, in which case records are kept one per line in line order. -/
theorem c2_load_aborts (parse : String → Option MetaRecord) (lines : List String) :
    ((∃ l ∈ lines, parse l = none) → loadMetadata parse lines = none)
    ∧ ((∀ l ∈ lines, parse l ≠ none) →
        loadMetadata parse lines = some (lines.map fun l => (parse l).getD default)) := by
  induction lines with
  | nil =>
    refine ⟨fun ⟨l, hl, _⟩ => absurd hl (List.not_mem_nil l), fun _ => ?_⟩
    simp [loadMetadata]
  | cons a as ih =>
    constructor
    · rintro ⟨l, hl, hnone⟩
      rcases List.mem_cons.mp hl with rfl | hmem
      · simp [loadMetadata, hnone]
      · cases hp : parse a with
        | none => simp [loadMetadata, hp]
        | some v => simp [loadMetadata, hp, ih.1 ⟨l, hmem, hnone⟩]
    · intro h
      cases hp : parse a with
      | none => exact absurd hp (h a (List.mem_cons_self a as))
      | some v =>
        simp [loadMetadata, hp, ih.2 fun l hl => h l (List.mem_cons_of_mem a hl)]

/-- Witness for C2 (amended): a single unparsable line makes the load fail. -/
theorem c2_load_aborts_witness : loadMetadata parse0 ["bad"] = none :=
  (c2_load_aborts parse0 ["bad"]).1 ⟨"bad", by decide, by decide⟩

/-- C3 counterexample: the request `top_k_candidates = 1, top_k_results = 10`
violates `top_k_candidates >= top_k_results`, yet the handler performs no
validation: it embeds, searches and answers normally with results instead of
failing with an invalid-request error. -/
theorem c3_counterexample :
    ¬((⟨"q", 1, 10, true, true⟩ : SearchRequest).top_k_results
        ≤ (⟨"q", 1, 10, true, true⟩ : SearchRequest).top_k_candidates)
    ∧ (search stPlain ⟨"q", 1, 10, true, true⟩).toOption.map
        (fun r => r.results.map fun c => c.project_id) = some ["P1"] :=
  ⟨by decide, by decide⟩

/-- C3 amended: the handler validates nothing — with a loaded index, every
request (any `top_k_candidates`/`top_k_results` values, bounded or not) is
processed through the full rewrite/embed/retrieve/join/truncate path and
answered with a normal `200` response; no invalid-request failure path exists.
`_hk` restricts the statement to nonnegative `top_k_candidates`, the region
where the FAISS call itself is defined. -/
theorem c3_no_validation (st : ServiceState) (req : SearchRequest) (db : List Vec)
    (hdb : st.faiss_index = some db) (_hk : 0 ≤ req.top_k_candidates) :
    search st req = .ok
      { query_original := req.query
        rewritten_query := (rewriteStep st req).2
        results := resultsFor st db (rewriteStep st req).1
          req.top_k_candidates req.top_k_results } := by
  simp only [search, hdb]

/-- Witness for C3 (amended): the bound-violating request of the
counterexample is served through the normal path. -/
theorem c3_no_validation_witness :
    search stPlain ⟨"q", 1, 10, true, true⟩ = .ok
      { query_original := "q"
        rewritten_query := (rewriteStep stPlain ⟨"q", 1, 10, true, true⟩).2
        results := resultsFor stPlain db0
          (rewriteStep stPlain ⟨"q", 1, 10, true, true⟩).1 1 10 } :=
  c3_no_validation stPlain ⟨"q", 1, 10, true, true⟩ db0 rfl (by decide)

/-- C4: when the rewrite capability is unconfigured (`openai_client` absent)
or the chat call raises, `rewrite_query` returns the original query unchanged,
and the handler still answers normally, with results computed from the
original query — a rewrite failure never aborts the request. -/
theorem c4_rewrite_fallback (st : ServiceState) (req : SearchRequest)
    (h : st.client = false ∨ st.rewriteO req.query = none)
    (db : List Vec) (hdb : st.faiss_index = some db)
    (_hk : 0 ≤ req.top_k_candidates) :
    rewrite_query st req.query = req.query
    ∧ search st req = .ok
        { query_original := req.query
          rewritten_query := if req.use_rewrite && st.client then some req.query else none
          results := resultsFor st db req.query req.top_k_candidates req.top_k_results } := by
  have hrw : rewrite_query st req.query = req.query := by
    rcases h with h | h
    · simp [rewrite_query, h]
    · cases hc : st.client <;> simp [rewrite_query, hc, h]
  refine ⟨hrw, ?_⟩
  simp only [search, hdb, rewriteStep]
  cases hb : req.use_rewrite && st.client <;> simp [hb, hrw]

/-- Witness for C4: a configured client whose rewrite call raises leaves the
query unchanged. -/
theorem c4_rewrite_fallback_witness :
    rewrite_query stFailingRewriter "q" = "q" :=
  (c4_rewrite_fallback stFailingRewriter ⟨"q", 2, 1, true, true⟩ (Or.inr rfl) db0 rfl
    (by decide)).1

/-- C5 counterexample: with the client configured, `use_rewrite = true` and a
failing rewrite call, the response carries `rewritten_query = some "q"` (the
original query), not `null`: the handler assigns `rewritten = q_search` before
it can know the rewrite fell back. -/
theorem c5_counterexample :
    stFailingRewriter.rewriteO "q" = none
    ∧ stFailingRewriter.client = true
    ∧ (search stFailingRewriter ⟨"q", 2, 1, true, true⟩).toOption.map
        (fun r => r.rewritten_query) = some (some "q") :=
  ⟨rfl, rfl, rfl⟩

/-- C5 amended: when the rewriter is disabled (no client), the response is
identical to the `use_rewrite = false` run, with `rewritten_query = none`;
when the rewriter is configured but its call fails, the results and original
query equal those of the `use_rewrite = false` run but `rewritten_query` is
`some` of the original query rather than `null`. -/
theorem c5_degraded_modes (st : ServiceState) (req : SearchRequest) :
    (st.client = false → search st req = search st { req with use_rewrite := false })
    ∧ (st.client = true → st.rewriteO req.query = none → req.use_rewrite = true →
        search st req
          = (search st { req with use_rewrite := false }).map
              fun r => { r with rewritten_query := some req.query }) := by
  constructor
  · intro hc
    cases hidx : st.faiss_index <;> simp [search, rewriteStep, hidx, hc]
  · intro hc hro hu
    have hrw : rewrite_query st req.query = req.query := by
      simp [rewrite_query, hc, hro]
    cases hidx : st.faiss_index with
    | none => simp [search, hidx, Except.map]
    | some db => simp [search, rewriteStep, hidx, hc, hu, hrw, Except.map]

/-- Witness for C5 (amended): the failing-rewriter service answers like the
`use_rewrite = false` run except for the non-null `rewritten_query`. -/
theorem c5_degraded_modes_witness :
    search stFailingRewriter ⟨"q", 2, 1, true, true⟩
      = (search stFailingRewriter ⟨"q", 2, 1, true, false⟩).map
          fun r => { r with rewritten_query := some "q" } :=
  (c5_degraded_modes stFailingRewriter ⟨"q", 2, 1, true, true⟩).2 rfl rfl rfl

/-- C6: a request served while the index was never loaded fails with the
index-unavailable error instead of returning results, and that error is
distinctive: the handler returns this error, and only this error, exactly in
the never-loaded-index state. -/
theorem c6_index_not_loaded (st : ServiceState) (req : SearchRequest)
    (h : st.faiss_index = none) :
    search st req = .error { status := 500, detail := "Index not loaded" }
    ∧ (∀ (st2 : ServiceState) (req2 : SearchRequest) (e : HTTPError),
        search st2 req2 = .error e →
          e = { status := 500, detail := "Index not loaded" } ∧ st2.faiss_index = none) := by
  constructor
  · simp [search, h]
  · intro st2 req2 e he
    cases hidx : st2.faiss_index with
    | none =>
      simp [search, hidx] at he
      exact ⟨he.symm, rfl⟩
    | some db => simp [search, hidx] at he

/-- Witness for C6: the service whose FAISS index file was never found
rejects a default request with the index error. -/
theorem c6_index_not_loaded_witness :
    search stNoIndex ⟨"q", 50, 10, true, true⟩
      = .error { status := 500, detail := "Index not loaded" } :=
  (c6_index_not_loaded stNoIndex ⟨"q", 50, 10, true, true⟩ rfl).1

/-- C7: the join keeps, in retrieved order, exactly the pairs whose row index
is in `[0, len(metadata))` — negative or too-large rows are silently dropped —
and each surviving candidate is the metadata record's fields together with the
similarity evidence string built from its score (`mkCandidate`); and the
request still succeeds whenever the index is loaded. -/
theorem c7_join_drop (metadata : List MetaRecord) (pairs : List (ℚ × Int)) :
    joinCandidates metadata pairs
      = (pairs.filter fun p => decide (0 ≤ p.2 ∧ p.2 < (metadata.length : Int))).map
          (fun p => mkCandidate (metadata.getD p.2.toNat default) p.1)
    ∧ (∀ (st : ServiceState) (req : SearchRequest) (db : List Vec),
        st.faiss_index = some db → 0 ≤ req.top_k_candidates →
          (search st req).isOk = true) := by
  constructor
  · induction pairs with
    | nil => simp [joinCandidates]
    | cons p rest ih =>
      obtain ⟨s, idx⟩ := p
      by_cases h : idx < 0 ∨ (metadata.length : Int) ≤ idx
      · have hf : ¬(0 ≤ idx ∧ idx < (metadata.length : Int)) := by omega
        simp [joinCandidates, h, hf, ih]
      · have ht : 0 ≤ idx ∧ idx < (metadata.length : Int) := by omega
        have hlt : idx.toNat < metadata.length := by omega
        simp [joinCandidates, h, ht, ih, List.getD_eq_getElem _ _ hlt,
          List.get_eq_getElem]
  · intro st req db hdb _hk
    simp [search, hdb, Except.isOk, Except.toBool]

/-- Witness for C7: a request against the loaded two-row service succeeds. -/
theorem c7_join_drop_witness :
    (search stPlain ⟨"q", 1, 1, true, true⟩).isOk = true :=
  (c7_join_drop [] []).2 stPlain ⟨"q", 1, 1, true, true⟩ db0 rfl (by decide)

/-- C8 counterexample: the unvalidated request `top_k_results = -1` against
two retrieved candidates yields one result (Python `candidates[:-1]` drops
from the end), so the final list is neither of length at most `top_k_results`
nor the first `top_k_results` candidates. -/
theorem c8_counterexample :
    (⟨"q", 2, -1, true, true⟩ : SearchRequest).top_k_results = -1
    ∧ (search stPlain ⟨"q", 2, -1, true, true⟩).toOption.map
        (fun r => r.results.length) = some 1
    ∧ ¬((1 : Int) ≤ -1) :=
  ⟨rfl, by decide, by decide⟩

/-- C8 amended: no rerank stage runs (`rerank_results` would itself be the
same truncation); for every request with nonnegative `top_k_results`, the
final results are exactly the first `top_k_results` joined candidates in
retrieved order, of length at most `top_k_results` and never more than the
candidates retrieved; a negative `top_k_results` instead drops that many
candidates from the end (Python slice semantics). -/
theorem c8_truncation (st : ServiceState) (req : SearchRequest) (db : List Vec)
    (hdb : st.faiss_index = some db) (hk : 0 ≤ req.top_k_results) :
    (∀ (cl : Bool) (cs : List SearchResult) (k : Int),
        rerank_results cl cs k = pySlice k cs)
    ∧ search st req = .ok
        { query_original := req.query
          rewritten_query := (rewriteStep st req).2
          results := (joined st db req).take req.top_k_results.toNat }
    ∧ ((joined st db req).take req.top_k_results.toNat).length
        ≤ req.top_k_results.toNat
    ∧ ((joined st db req).take req.top_k_results.toNat).length
        ≤ (retrieve db (st.embedO (rewriteStep st req).1) req.top_k_candidates).length := by
  refine ⟨?_, ?_, ?_, ?_⟩
  · intro cl cs k
    unfold rerank_results
    split <;> rfl
  · simp only [search, hdb, resultsFor, pySlice, if_pos hk]
    rfl
  · rw [List.length_take]
    exact Nat.min_le_left _ _
  · rw [List.length_take]
    exact le_trans (Nat.min_le_right _ _) (joinCandidates_length_le _ _)

/-- Witness for C8 (amended): with `top_k_results = 1` the truncated list has
at most one element. -/
theorem c8_truncation_witness :
    ((joined stPlain db0 ⟨"q", 2, 1, true, true⟩).take ((1 : Int)).toNat).length
      ≤ ((1 : Int)).toNat :=
  (c8_truncation stPlain ⟨"q", 2, 1, true, true⟩ db0 rfl (by decide)).2.2.1

/-- C9: the modelled index search returns at most `k` rows, ordered by
non-increasing inner-product score with ties broken by ascending original row
order; every returned pair is a genuine database row with its inner-product
score; and `search(v, k1)` is a prefix of `search(v, k2)` for `k1 ≤ k2`
(here unconditionally, ties included, since the modelled tie-break is total). -/
theorem c9_search_contract (db : List Vec) (v : Vec) :
    (∀ k, (faissTopk db v k).length ≤ k)
    ∧ (∀ k, (faissTopk db v k).Pairwise fun a b =>
        b.2 < a.2 ∨ (a.2 = b.2 ∧ a.1 ≤ b.1))
    ∧ (∀ k p, p ∈ faissTopk db v k → ∃ w, db[p.1]? = some w ∧ p.2 = dot v w)
    ∧ (∀ k1 k2, k1 ≤ k2 → faissTopk db v k1 = (faissTopk db v k2).take k1) := by
  refine ⟨?_, ?_, ?_, ?_⟩
  · intro k
    rw [faissTopk, List.length_take]
    exact Nat.min_le_left _ _
  · intro k
    have hs : ((scoredRows db v).insertionSort rankR).Pairwise rankR :=
      List.sorted_insertionSort rankR _
    exact List.Pairwise.sublist (List.take_sublist _ _) hs
  · intro k p hp
    have hp2 : p ∈ scoredRows db v :=
      (List.perm_insertionSort rankR _).mem_iff.mp (List.mem_of_mem_take hp)
    rw [scoredRows] at hp2
    have hsc := List.mem_enum_iff_getElem?.mp hp2
    rw [List.getElem?_map] at hsc
    cases hw : db[p.1]? with
    | none =>
      rw [hw] at hsc
      simp at hsc
    | some w =>
      rw [hw] at hsc
      simp only [Option.map_some', Option.some.injEq] at hsc
      exact ⟨w, rfl, hsc.symm⟩
  · intro k1 k2 hk
    rw [faissTopk, faissTopk, List.take_take, Nat.min_eq_left hk]

/-- Witness for C9: the one-element retrieval is a prefix of the two-element
retrieval on the fixture database. -/
theorem c9_search_contract_witness :
    faissTopk db0 [] 1 = (faissTopk db0 [] 2).take 1 :=
  (c9_search_contract db0 []).2.2.2 1 2 (by decide)

/-- C10: `use_rerank` has no effect on the response — two requests identical
except for that flag produce equal responses (same `query_original`,
`rewritten_query` and `results`): the handler never reads the flag and never
calls `rerank_results`. -/
theorem c10_use_rerank_inert (st : ServiceState) (q : String) (tkc tkr : Int)
    (b1 b2 uw : Bool) :
    search st ⟨q, tkc, tkr, b1, uw⟩ = search st ⟨q, tkc, tkr, b2, uw⟩ := rfl

end RndMap
